import Mathlib

/-!
Verification of the batched approximate EMD matcher of this repository
(src/utils/loss.py: emdFunction.forward / emdFunction.backward, emdModule,
emd_loss) as a shallow embedding.

The Python wrapper in src/utils/loss.py is embedded directly.  The CUDA
kernel pair (emd.forward / emd.backward, imported as the compiled module
emd) is not part of the source tree; those two procedures are modelled
from the specification (auction algorithm rounds for forward, the
chain-rule gradient formula for backward), with a doc comment marking
each such definition.

Floating-point numbers are modelled by rationals; int32 buffers by
integers (index magnitudes stay far below 2^31 here, so no wraparound
arises); a batched (batch, n, 3) tensor by its shape together with a
total function from indices to values; raising of a Python exception by
the error branch of an Except value.
-/

/-- A 3-D point: one row of a (batch, N, 3) coordinate tensor. -/
structure Pt where
  x : ℚ
  y : ℚ
  z : ℚ
deriving DecidableEq

/-- Squared Euclidean distance between two points. -/
def sqDist (p q : Pt) : ℚ :=
  (p.x - q.x) ^ 2 + (p.y - q.y) ^ 2 + (p.z - q.z) ^ 2

/-- Pointwise difference of two points. -/
def ptSub (p q : Pt) : Pt :=
  ⟨p.x - q.x, p.y - q.y, p.z - q.z⟩

/-- Scalar multiple of a point. -/
def ptSmul (c : ℚ) (p : Pt) : Pt :=
  ⟨c * p.x, c * p.y, c * p.z⟩

/-- The zero point (a row of a torch.zeros buffer). -/
def ptZero : Pt := ⟨0, 0, 0⟩

/-- A batched point set: shape (batchsize, n, 3) plus the coordinates.
Indices outside the shape are irrelevant; the function is total. -/
structure PointBatch where
  batchsize : ℕ
  n : ℕ
  pts : ℕ → ℕ → Pt

/-- The single error an assert statement in emdFunction.forward can raise:
a bare Python AssertionError (none of the asserts carries a message). -/
inductive PyError where
  | assertionError : PyError
deriving DecidableEq

/-- Per-batch-element solver state of the auction: the A-to-B assignment
(int32 buffer, -1 when unmatched), its inverse, and the per-B-point price. -/
structure AuctionState where
  assignment : ℕ → ℤ
  assignment_inv : ℕ → ℤ
  price : ℕ → ℚ

/-- Lowest-index argmin of f over a list (ties keep the earlier element). -/
def argminList (f : ℕ → ℚ) : List ℕ → Option ℕ
  | [] => none
  | a :: l =>
    match argminList f l with
    | none => some a
    | some b => if f a ≤ f b then some a else some b

/-- Highest-value element of a list under f (ties keep the earlier element,
so the lowest index wins ties, the deterministic tie-break the spec asks
a reimplementation to pick). -/
def argmaxList (f : ℕ → ℚ) : List ℕ → Option ℕ
  | [] => none
  | a :: l =>
    match argmaxList f l with
    | none => some a
    | some b => if f a < f b then some b else some a

/-- Modelled from the spec: the adjusted cost a bidder i sees for candidate
j, the cost-minus-price of algorithm step 2, where the base cost c already
holds the squared distance plus the eps-scaled regularizer. -/
def adjOf (c : ℕ → ℕ → ℚ) (s : AuctionState) (i j : ℕ) : ℚ :=
  c i j - s.price j

/-- Modelled from the spec: the best candidate of bidder i, the adjusted-cost
minimizer over all of B (candidates 0..n-1); 0 is a junk value for n = 0. -/
def bestOf (adj : ℕ → ℕ → ℚ) (n i : ℕ) : ℕ :=
  (argminList (adj i) (List.range n)).getD 0

/-- Modelled from the spec: the bid increment of bidder i, the gap between
the second-best and best adjusted cost (0 when no second candidate exists). -/
def bidIncr (adj : ℕ → ℕ → ℚ) (n i : ℕ) : ℚ :=
  match argminList (adj i) ((List.range n).filter (fun j => j ≠ bestOf adj n i)) with
  | some j2 => adj i j2 - adj i (bestOf adj n i)
  | none => 0

/-- Modelled from the spec: the A-points that bid for B-point j this round,
i.e. the currently-unassigned points whose best candidate is j. -/
def bidders (n : ℕ) (s : AuctionState) (best : ℕ → ℕ) (j : ℕ) : List ℕ :=
  (List.range n).filter (fun i => decide (s.assignment i = -1 ∧ best i = j))

/-- Best candidate of bidder i in the current round. -/
def roundBest (c : ℕ → ℕ → ℚ) (n : ℕ) (s : AuctionState) (i : ℕ) : ℕ :=
  bestOf (adjOf c s) n i

/-- Bid increment of bidder i in the current round. -/
def roundIncr (c : ℕ → ℕ → ℚ) (n : ℕ) (s : AuctionState) (i : ℕ) : ℚ :=
  bidIncr (adjOf c s) n i

/-- Modelled from the spec: the winner of B-point j this round, the highest
bidder among the points bidding for j (per-round barrier arbitration;
lowest index wins ties), or none when j receives no bids. -/
def roundWin (c : ℕ → ℕ → ℚ) (n : ℕ) (s : AuctionState) (j : ℕ) : Option ℕ :=
  argmaxList (roundIncr c n s) (bidders n s (roundBest c n s) j)

/-- Modelled from the spec: one auction round (algorithm steps 2 and 3).
Every unassigned A-point bids for its best candidate; for each B-point
receiving bids the highest bidder wins, the price rises by the winning
increment, the previous occupant (if any) is unassigned, and the winner
is recorded in the assignment and its inverse. -/
def runRound (c : ℕ → ℕ → ℚ) (n : ℕ) (s : AuctionState) : AuctionState :=
  { assignment := fun i =>
      if s.assignment i = -1 then
        if roundWin c n s (roundBest c n s i) = some i then
          ((roundBest c n s i : ℕ) : ℤ)
        else -1
      else
        if (roundWin c n s (s.assignment i).toNat).isSome then -1
        else s.assignment i
  , assignment_inv := fun j =>
      match roundWin c n s j with
      | some w => (w : ℤ)
      | none => s.assignment_inv j
  , price := fun j =>
      match roundWin c n s j with
      | some w => s.price j + roundIncr c n s w
      | none => s.price j }

/-- Modelled from the spec: the bounded round loop (algorithm step 4):
repeat until all A-points are assigned or iters rounds have elapsed.  A
round with no unassigned point has no bidders and leaves the state
unchanged, so running exactly iters rounds is extensionally the same. -/
def runRounds (c : ℕ → ℕ → ℚ) (n : ℕ) : ℕ → AuctionState → AuctionState
  | 0, s => s
  | k + 1, s => runRounds c n k (runRound c n s)

/-- Modelled from the spec: the base cost of algorithm step 2,
cost(i,j) = squared distance + eps * regularizer. -/
def baseCost (xyz1 xyz2 : ℕ → Pt) (eps : ℚ) (reg : ℕ → ℕ → ℚ) (i j : ℕ) : ℚ :=
  sqDist (xyz1 i) (xyz2 j) + eps * reg i j

/-- Modelled from the spec: the regularizer term is left unspecified by the
spec (noise or regularizer); it is taken to be zero here.  The matching
invariants proved below hold for every choice of regularizer. -/
def reg0 : ℕ → ℕ → ℚ := fun _ _ => 0

/-- Modelled from the spec: the emd.forward kernel on one batch element
(batch elements are fully independent): run the bounded auction loop from
the initial state the Python caller allocated. -/
def emd_forward (xyz1 xyz2 : ℕ → Pt) (n : ℕ) (s0 : AuctionState) (eps : ℚ)
    (iters : ℕ) : AuctionState :=
  runRounds (baseCost xyz1 xyz2 eps reg0) n iters s0

/-- Modelled from the spec: the dist output (algorithm step 5), the squared
distance of each matched A-point to its partner; the unmatched-entry
policy picked here is the value 0 the Python-allocated zero buffer holds. -/
def distOf (xyz1 xyz2 : ℕ → Pt) (s : AuctionState) (i : ℕ) : ℚ :=
  if s.assignment i = -1 then 0
  else sqDist (xyz1 i) (xyz2 (s.assignment i).toNat)

/-- The per-batch-element solver state as the Python wrapper allocates it
(src/utils/loss.py lines 79-81): assignment and assignment_inv are
torch.zeros int32 buffers minus one, price a torch.zeros float buffer. -/
def forwardInitState : AuctionState :=
  { assignment := fun _ => 0 - 1
  , assignment_inv := fun _ => 0 - 1
  , price := fun _ => 0 }

/-- Everything emdFunction.forward hands back: the two returned arrays dist
and assignment, and the tensors stored by ctx.save_for_backward for the
one backward call. -/
structure ForwardResult where
  dist : ℕ → ℕ → ℚ
  assignment : ℕ → ℕ → ℤ
  saved_xyz1 : PointBatch
  saved_xyz2 : PointBatch
  saved_assignment : ℕ → ℕ → ℤ

/-- Final auction state of batch element b inside a forward call. -/
def forwardFinalState (xyz1 xyz2 : PointBatch) (eps : ℚ) (iters : ℕ)
    (b : ℕ) : AuctionState :=
  emd_forward (xyz1.pts b) (xyz2.pts b) xyz1.n forwardInitState eps iters

/-- emdFunction.forward (src/utils/loss.py lines 67-95).  The four assert
statements run, in source order, before any buffer is allocated; each
failure raises a bare AssertionError.  On success the freshly allocated
per-call state is handed to the kernel and the dist and assignment
buffers are returned, with (xyz1, xyz2, assignment) saved for backward. -/
def emdFunction_forward (xyz1 xyz2 : PointBatch) (eps : ℚ) (iters : ℕ) :
    Except PyError ForwardResult :=
  if xyz1.n = xyz2.n then
    if xyz1.batchsize = xyz2.batchsize then
      if xyz1.n % 1024 = 0 then
        if xyz1.batchsize ≤ 512 then
          Except.ok
            { dist := fun b i =>
                distOf (xyz1.pts b) (xyz2.pts b) (forwardFinalState xyz1 xyz2 eps iters b) i
            , assignment := fun b i => (forwardFinalState xyz1 xyz2 eps iters b).assignment i
            , saved_xyz1 := xyz1
            , saved_xyz2 := xyz2
            , saved_assignment := fun b i => (forwardFinalState xyz1 xyz2 eps iters b).assignment i }
        else Except.error PyError.assertionError
      else Except.error PyError.assertionError
    else Except.error PyError.assertionError
  else Except.error PyError.assertionError

/-- emdModule.forward (src/utils/loss.py lines 113-114): delegates to
emdFunction with default tuning parameters eps = 0.005 and iters = 50,
both caller-settable and passed through unchanged. -/
def emdModule_forward (input1 input2 : PointBatch)
    (eps : optParam ℚ 0.005) (iters : optParam ℕ 50) :
    Except PyError ForwardResult :=
  emdFunction_forward input1 input2 eps iters

/-- torch.mean of a (batchsize, n) tensor, as an exact rational. -/
def torch_mean (batchsize n : ℕ) (t : ℕ → ℕ → ℚ) : ℚ :=
  ((Finset.range batchsize).sum fun b => (Finset.range n).sum fun i => t b i) /
    ((batchsize : ℚ) * (n : ℚ))

/-- emd_loss (src/utils/loss.py lines 59-62): call the module forward with
its default parameters, keep component 0 of the returned pair (the dist
array), and return its mean; an exception from forward propagates. -/
def emd_loss (output gt : PointBatch) : Except PyError ℚ :=
  Except.map (fun r => torch_mean output.batchsize output.n r.dist)
    (emdModule_forward output gt)

/-- Modelled from the spec: the emd.backward kernel on one batch element,
writing grad_xyz1 into the caller's zero buffer: for a matched pair
(i, j = assignment[i]), grad_xyz1[i] = grad_dist[i] * 2 * (xyz1[i] - xyz2[j]),
with the saved assignment treated as constant (stop-gradient through the
matching); an unmatched i keeps the buffer's zero. -/
def emd_backward (xyz1 xyz2 : ℕ → Pt) (graddist : ℕ → ℚ) (assignment : ℕ → ℤ)
    (i : ℕ) : Pt :=
  if assignment i = -1 then ptZero
  else ptSmul (graddist i) (ptSmul 2 (ptSub (xyz1 i) (xyz2 (assignment i).toNat)))

/-- The pair of gradient arrays emdFunction.backward returns (the two
trailing Nones of the Python return, the gradients for eps and iters,
are omitted). -/
structure BackwardResult where
  gradxyz1 : ℕ → ℕ → Pt
  gradxyz2 : ℕ → ℕ → Pt

/-- emdFunction.backward (src/utils/loss.py lines 97-106).  The saved
tensors are read back, gradxyz1 and gradxyz2 are allocated as zero
buffers, and emd.backward is invoked with xyz1, xyz2, gradxyz1, graddist
and assignment only: gradxyz2 is never passed to the kernel, so it is
returned exactly as allocated, identically zero. -/
def emdFunction_backward (saved_xyz1 saved_xyz2 : PointBatch)
    (saved_assignment : ℕ → ℕ → ℤ) (graddist : ℕ → ℕ → ℚ) : BackwardResult :=
  { gradxyz1 := fun b i =>
      emd_backward (saved_xyz1.pts b) (saved_xyz2.pts b) (graddist b)
        (saved_assignment b) i
  , gradxyz2 := fun _ _ => ptZero }

/-- Floating-point storage precisions a torch tensor of this file can have. -/
inductive DType where
  | float32 : DType
  | float64 : DType
deriving DecidableEq

/-- torch.get_default_dtype(): float32; no file of the repository calls
torch.set_default_dtype, so the default is in force in every call. -/
def torch_get_default_dtype : DType := DType.float32

/-- The storage precision of each floating-point buffer emdFunction.forward
touches (src/utils/loss.py lines 76-89): the two inputs are converted with
.float(), which is float32; dist, price, bid_increments and max_increments
are allocated by torch.zeros without a dtype argument, hence with the
default dtype. -/
structure ForwardFloatDtypes where
  xyz1 : DType
  xyz2 : DType
  dist : DType
  price : DType
  bid_increments : DType
  max_increments : DType

/-- The precisions as the allocation code of emdFunction.forward fixes them. -/
def emdFunction_forward_dtypes : ForwardFloatDtypes :=
  { xyz1 := DType.float32
  , xyz2 := DType.float32
  , dist := torch_get_default_dtype
  , price := torch_get_default_dtype
  , bid_increments := torch_get_default_dtype
  , max_increments := torch_get_default_dtype }

/-- emdFunction.forward run against an arbitrary ambient state g (anything
outside the call: other modules, results of earlier invocations).  The
body of the Python function reads and writes only its arguments and
freshly allocated tensors, so its embedding leaves g untouched and its
result cannot depend on g. -/
def emdFunction_forwardRun {G : Type} (g : G) (xyz1 xyz2 : PointBatch)
    (eps : ℚ) (iters : ℕ) : G × Except PyError ForwardResult :=
  (g, emdFunction_forward xyz1 xyz2 eps iters)

/-- The auction matching invariant on one batch element's state: every
assignment entry is the sentinel -1 or an index in [0, n); assignment and
its inverse are mutually inverse on matched entries (which forces the
matched part of assignment to be injective). -/
def AuctionInv (n : ℕ) (s : AuctionState) : Prop :=
  (∀ i, s.assignment i = -1 ∨ (0 ≤ s.assignment i ∧ s.assignment i < (n : ℤ))) ∧
  (∀ i, s.assignment i ≠ -1 → s.assignment_inv (s.assignment i).toNat = (i : ℤ)) ∧
  (∀ j, j < n → s.assignment_inv j ≠ -1 →
    0 ≤ s.assignment_inv j ∧ s.assignment ((s.assignment_inv j).toNat) = (j : ℤ))

theorem argminList_ne_none {f : ℕ → ℚ} {a : ℕ} {l : List ℕ} :
    argminList f (a :: l) ≠ none := by
  simp only [argminList]
  cases h : argminList f l with
  | none => simp
  | some b => by_cases hle : f a ≤ f b <;> simp [hle]

theorem argminList_mem {f : ℕ → ℚ} :
    ∀ {l : List ℕ} {a : ℕ}, argminList f l = some a → a ∈ l := by
  intro l
  induction l with
  | nil => intro a h; simp [argminList] at h
  | cons x xs ih =>
    intro a h
    cases hx : argminList f xs with
    | none =>
      simp only [argminList, hx] at h
      obtain rfl : x = a := by injection h
      exact List.mem_cons_self x xs
    | some b =>
      simp only [argminList, hx] at h
      by_cases hle : f x ≤ f b
      · rw [if_pos hle] at h
        obtain rfl : x = a := by injection h
        exact List.mem_cons_self x xs
      · rw [if_neg hle] at h
        obtain rfl : b = a := by injection h
        exact List.mem_cons_of_mem x (ih hx)

theorem argmaxList_mem {f : ℕ → ℚ} :
    ∀ {l : List ℕ} {a : ℕ}, argmaxList f l = some a → a ∈ l := by
  intro l
  induction l with
  | nil => intro a h; simp [argmaxList] at h
  | cons x xs ih =>
    intro a h
    cases hx : argmaxList f xs with
    | none =>
      simp only [argmaxList, hx] at h
      obtain rfl : x = a := by injection h
      exact List.mem_cons_self x xs
    | some b =>
      simp only [argmaxList, hx] at h
      by_cases hlt : f x < f b
      · rw [if_pos hlt] at h
        obtain rfl : b = a := by injection h
        exact List.mem_cons_of_mem x (ih hx)
      · rw [if_neg hlt] at h
        obtain rfl : x = a := by injection h
        exact List.mem_cons_self x xs

theorem bestOf_lt {adj : ℕ → ℕ → ℚ} {n : ℕ} (hn : 0 < n) (i : ℕ) :
    bestOf adj n i < n := by
  unfold bestOf
  cases h : argminList (adj i) (List.range n) with
  | none =>
    exfalso
    obtain ⟨m, l, hl⟩ : ∃ m l, List.range n = m :: l := by
      cases hr : List.range n with
      | nil => rw [List.range_eq_nil] at hr; omega
      | cons m l => exact ⟨m, l, rfl⟩
    rw [hl] at h
    exact argminList_ne_none h
  | some b =>
    have hmem := argminList_mem h
    simpa using List.mem_range.mp hmem

theorem roundWin_spec {c : ℕ → ℕ → ℚ} {n : ℕ} {s : AuctionState} {j w : ℕ}
    (h : roundWin c n s j = some w) :
    w < n ∧ s.assignment w = -1 ∧ roundBest c n s w = j := by
  unfold roundWin at h
  have hmem := argmaxList_mem h
  unfold bidders at hmem
  rw [List.mem_filter] at hmem
  obtain ⟨hr, hp⟩ := hmem
  have hp2 := of_decide_eq_true hp
  exact ⟨List.mem_range.mp hr, hp2.1, hp2.2⟩

theorem auctionInv_runRound {c : ℕ → ℕ → ℚ} {n : ℕ} {s : AuctionState}
    (h : AuctionInv n s) : AuctionInv n (runRound c n s) := by
  obtain ⟨h1, h2, h3⟩ := h
  refine ⟨?_, ?_, ?_⟩
  · intro i
    simp only [runRound]
    by_cases ha : s.assignment i = -1
    · rw [if_pos ha]
      by_cases hw : roundWin c n s (roundBest c n s i) = some i
      · rw [if_pos hw]
        right
        have hspec := roundWin_spec hw
        have hn : 0 < n := lt_of_le_of_lt (Nat.zero_le i) hspec.1
        have hb : roundBest c n s i < n := bestOf_lt hn i
        exact ⟨Int.ofNat_nonneg _, by exact_mod_cast hb⟩
      · rw [if_neg hw]
        left
        rfl
    · rw [if_neg ha]
      by_cases hw : (roundWin c n s (s.assignment i).toNat).isSome
      · rw [if_pos hw]
        left
        rfl
      · rw [if_neg hw]
        exact h1 i
  · intro i hne
    simp only [runRound] at hne ⊢
    by_cases ha : s.assignment i = -1
    · rw [if_pos ha] at hne ⊢
      by_cases hw : roundWin c n s (roundBest c n s i) = some i
      · rw [if_pos hw] at hne ⊢
        rw [Int.toNat_natCast]
        simp only [hw]
      · rw [if_neg hw] at hne
        exact absurd rfl hne
    · rw [if_neg ha] at hne ⊢
      by_cases hw : (roundWin c n s (s.assignment i).toNat).isSome
      · rw [if_pos hw] at hne
        exact absurd rfl hne
      · rw [if_neg hw] at hne ⊢
        have hnone : roundWin c n s (s.assignment i).toNat = none :=
          Option.not_isSome_iff_eq_none.mp hw
        simp only [hnone]
        exact h2 i ha
  · intro j hj hne
    simp only [runRound] at hne ⊢
    cases hw : roundWin c n s j with
    | some w =>
      simp only [hw] at hne ⊢
      have hspec := roundWin_spec hw
      refine ⟨Int.ofNat_nonneg _, ?_⟩
      rw [Int.toNat_natCast]
      rw [if_pos hspec.2.1]
      rw [hspec.2.2]
      rw [if_pos hw]
    | none =>
      simp only [hw] at hne ⊢
      obtain ⟨hge, hasg⟩ := h3 j hj hne
      refine ⟨hge, ?_⟩
      have hne2 : s.assignment ((s.assignment_inv j).toNat) ≠ -1 := by
        rw [hasg]
        omega
      rw [if_neg hne2, hasg, Int.toNat_natCast, hw]
      simp

theorem auctionInv_runRounds (c : ℕ → ℕ → ℚ) (n : ℕ) :
    ∀ (k : ℕ) (s : AuctionState), AuctionInv n s → AuctionInv n (runRounds c n k s)
  | 0, _, h => h
  | k + 1, s, h => auctionInv_runRounds c n k (runRound c n s) (auctionInv_runRound h)

theorem auctionInv_init (n : ℕ) : AuctionInv n forwardInitState := by
  refine ⟨?_, ?_, ?_⟩
  · intro i
    left
    show (0 - 1 : ℤ) = -1
    decide
  · intro i hne
    exact absurd (show forwardInitState.assignment i = -1 from rfl) hne
  · intro j hj hne
    exact absurd (show forwardInitState.assignment_inv j = -1 from rfl) hne

theorem emdForward_error_of_violation (xyz1 xyz2 : PointBatch) (eps : ℚ) (iters : ℕ)
    (h : xyz1.n ≠ xyz2.n ∨ xyz1.batchsize ≠ xyz2.batchsize ∨
      xyz1.n % 1024 ≠ 0 ∨ 512 < xyz1.batchsize) :
    emdFunction_forward xyz1 xyz2 eps iters = Except.error PyError.assertionError := by
  unfold emdFunction_forward
  split_ifs with h1 h2 h3 h4
  · rcases h with h | h | h | h
    · exact absurd h1 h
    · exact absurd h2 h
    · exact absurd h3 h
    · omega
  all_goals rfl

/-- C1: for every valid input pair (equal batch, equal N, N a multiple of
the block size 1024, batch at most 512), every entry of the assignment
array returned by the forward call is either an index in [0, N) or the
unmatched sentinel -1, and the matched entries are injective: no two
distinct A-point indices are assigned the same B-point index. -/
theorem emdFunction_forward_assignment_valid (xyz1 xyz2 : PointBatch)
    (eps : ℚ) (iters : ℕ)
    (h1 : xyz1.n = xyz2.n) (h2 : xyz1.batchsize = xyz2.batchsize)
    (h3 : xyz1.n % 1024 = 0) (h4 : xyz1.batchsize ≤ 512) :
    ∀ r, emdFunction_forward xyz1 xyz2 eps iters = Except.ok r →
      (∀ b i, i < xyz1.n →
        r.assignment b i = -1 ∨
          (0 ≤ r.assignment b i ∧ r.assignment b i < (xyz1.n : ℤ))) ∧
      (∀ b i1 i2, i1 < xyz1.n → i2 < xyz1.n → r.assignment b i1 ≠ -1 →
        r.assignment b i1 = r.assignment b i2 → i1 = i2) := by
  intro r hr
  unfold emdFunction_forward at hr
  rw [if_pos h1, if_pos h2, if_pos h3, if_pos h4] at hr
  injection hr with hr
  subst hr
  have hinv : ∀ b : ℕ, AuctionInv xyz1.n (forwardFinalState xyz1 xyz2 eps iters b) :=
    fun _ => auctionInv_runRounds _ _ iters _ (auctionInv_init _)
  constructor
  · intro b i _
    exact (hinv b).1 i
  · intro b i1 i2 _ _ hne heq
    have heq2 : (forwardFinalState xyz1 xyz2 eps iters b).assignment i1 =
        (forwardFinalState xyz1 xyz2 eps iters b).assignment i2 := heq
    have g1 := (hinv b).2.1 i1 hne
    have hne2 : (forwardFinalState xyz1 xyz2 eps iters b).assignment i2 ≠ -1 := by
      rw [← heq2]
      exact hne
    have g2 := (hinv b).2.1 i2 hne2
    rw [heq2] at g1
    rw [g2] at g1
    exact_mod_cast g1.symm

/-- C1 witness: the theorem applies at the concrete valid input with batch 1
and N = 1024 (all points at the origin). -/
theorem emdFunction_forward_assignment_valid_witness :
    ((1024 : ℕ) = 1024 ∧ (1 : ℕ) = 1 ∧ (1024 : ℕ) % 1024 = 0 ∧ (1 : ℕ) ≤ 512) ∧
    (∀ r, emdFunction_forward (PointBatch.mk 1 1024 (fun _ _ => ptZero))
        (PointBatch.mk 1 1024 (fun _ _ => ptZero)) 1 2 = Except.ok r →
      (∀ b i, i < (1024 : ℕ) →
        r.assignment b i = -1 ∨
          (0 ≤ r.assignment b i ∧ r.assignment b i < ((1024 : ℕ) : ℤ))) ∧
      (∀ b i1 i2, i1 < (1024 : ℕ) → i2 < (1024 : ℕ) → r.assignment b i1 ≠ -1 →
        r.assignment b i1 = r.assignment b i2 → i1 = i2)) :=
  ⟨⟨rfl, rfl, by decide, by decide⟩,
    emdFunction_forward_assignment_valid _ _ 1 2 rfl rfl (by decide) (by decide)⟩

/-- C2: for every backward call, at each A-point i the forward matched to
j = assignment[i] the returned gradient is
grad_xyz1[i] = grad_dist[i] * 2 * (xyz1[i] - xyz2[j]), the saved assignment
entering only as a constant; every unmatched A-point receives a zero
gradient in grad_xyz1. -/
theorem emdFunction_backward_gradxyz1_formula (saved_xyz1 saved_xyz2 : PointBatch)
    (saved_assignment : ℕ → ℕ → ℤ) (graddist : ℕ → ℕ → ℚ) (b i : ℕ) :
    (∀ j : ℕ, saved_assignment b i = (j : ℤ) →
      (emdFunction_backward saved_xyz1 saved_xyz2 saved_assignment graddist).gradxyz1 b i =
        ptSmul (graddist b i)
          (ptSmul 2 (ptSub (saved_xyz1.pts b i) (saved_xyz2.pts b j)))) ∧
    (saved_assignment b i = -1 →
      (emdFunction_backward saved_xyz1 saved_xyz2 saved_assignment graddist).gradxyz1 b i =
        ptZero) := by
  constructor
  · intro j hj
    show emd_backward (saved_xyz1.pts b) (saved_xyz2.pts b) (graddist b)
        (saved_assignment b) i = _
    unfold emd_backward
    rw [hj]
    rw [if_neg (show ¬((j : ℤ) = -1) by omega)]
    rw [Int.toNat_natCast]
  · intro hm
    show emd_backward (saved_xyz1.pts b) (saved_xyz2.pts b) (graddist b)
        (saved_assignment b) i = ptZero
    unfold emd_backward
    rw [if_pos hm]

/-- C2 witness: a concrete backward call with batch 1, one point, xyz1 =
(1,2,3), xyz2 = (0,0,0), assignment matching 0 to 0 and incoming gradient 1
yields grad_xyz1[0] = (2,4,6). -/
theorem emdFunction_backward_gradxyz1_formula_witness :
    ((fun _ _ => (0 : ℤ)) 0 0 = ((0 : ℕ) : ℤ)) ∧
    (emdFunction_backward (PointBatch.mk 1 1 (fun _ _ => Pt.mk 1 2 3))
        (PointBatch.mk 1 1 (fun _ _ => ptZero)) (fun _ _ => (0 : ℤ))
        (fun _ _ => (1 : ℚ))).gradxyz1 0 0 =
      ptSmul 1 (ptSmul 2 (ptSub (Pt.mk 1 2 3) ptZero)) ∧
    ptSmul 1 (ptSmul 2 (ptSub (Pt.mk 1 2 3) ptZero)) = Pt.mk 2 4 6 :=
  ⟨rfl,
    (emdFunction_backward_gradxyz1_formula _ _ _ _ 0 0).1 0 rfl,
    by norm_num [ptSmul, ptSub, ptZero, Pt.mk.injEq]⟩

/-- C3 counterexample: a backward call with matched pair (0,0), incoming
gradient 1 and xyz1[0] ≠ xyz2[0]: the contribution the claim asserts,
-grad_dist[0] * 2 * (xyz1[0] - xyz2[0]), is nonzero, yet the returned
grad_xyz2 entry is zero.  The backward code never computes grad_xyz2: the
buffer is allocated as zeros and is not among the arguments passed to the
kernel (src/utils/loss.py line 105). -/
theorem emdFunction_backward_gradxyz2_counterexample :
    ((fun _ _ => (0 : ℤ)) 0 0 = ((0 : ℕ) : ℤ)) ∧
    (emdFunction_backward (PointBatch.mk 1 1 (fun _ _ => Pt.mk 1 2 3))
        (PointBatch.mk 1 1 (fun _ _ => ptZero)) (fun _ _ => (0 : ℤ))
        (fun _ _ => (1 : ℚ))).gradxyz2 0 0 = ptZero ∧
    ptSmul (-(1 : ℚ)) (ptSmul 2 (ptSub (Pt.mk 1 2 3) ptZero)) ≠ ptZero :=
  ⟨rfl, rfl, by norm_num [ptSmul, ptSub, ptZero, Pt.mk.injEq]⟩

/-- C3 (amended): the backward call returns grad_xyz2 identically zero for
all inputs; no gradient contribution is ever routed to the second point
set, whether or not the caller requires one. -/
theorem emdFunction_backward_gradxyz2_zero (saved_xyz1 saved_xyz2 : PointBatch)
    (saved_assignment : ℕ → ℕ → ℤ) (graddist : ℕ → ℕ → ℚ) (b j : ℕ) :
    (emdFunction_backward saved_xyz1 saved_xyz2 saved_assignment graddist).gradxyz2 b j =
      ptZero := rfl

/-- C4: a forward call whose inputs violate a shape precondition (N differs
between the sets, batch dimensions differ, N not a multiple of the block
size 1024, batch above 512) fails with the assertion error raised by the
checks that precede every allocation, and returns no forward result at all,
partial or otherwise. -/
theorem emdFunction_forward_shape_violation_fatal (xyz1 xyz2 : PointBatch)
    (eps : ℚ) (iters : ℕ)
    (h : xyz1.n ≠ xyz2.n ∨ xyz1.batchsize ≠ xyz2.batchsize ∨
      xyz1.n % 1024 ≠ 0 ∨ 512 < xyz1.batchsize) :
    emdFunction_forward xyz1 xyz2 eps iters = Except.error PyError.assertionError ∧
    ∀ r, emdFunction_forward xyz1 xyz2 eps iters ≠ Except.ok r := by
  have hm := emdForward_error_of_violation xyz1 xyz2 eps iters h
  refine ⟨hm, ?_⟩
  intro r hr
  rw [hm] at hr
  simp at hr

/-- C4 witness: the theorem applied at an input whose N = 3 is not a
multiple of the block size. -/
theorem emdFunction_forward_shape_violation_fatal_witness :
    ((3 : ℕ) ≠ 3 ∨ (1 : ℕ) ≠ 1 ∨ (3 : ℕ) % 1024 ≠ 0 ∨ (512 : ℕ) < 1) ∧
    (emdFunction_forward (PointBatch.mk 1 3 (fun _ _ => ptZero))
        (PointBatch.mk 1 3 (fun _ _ => ptZero)) 0 0 =
      Except.error PyError.assertionError ∧
    ∀ r, emdFunction_forward (PointBatch.mk 1 3 (fun _ _ => ptZero))
        (PointBatch.mk 1 3 (fun _ _ => ptZero)) 0 0 ≠ Except.ok r) :=
  ⟨by decide, emdFunction_forward_shape_violation_fatal _ _ 0 0 (by decide)⟩

/-- C5 counterexample: an N-mismatch call and a batch-513 call signal the
very same error value, the bare assertion error, which is the only error
the forward code can raise; no distinct InvalidShape / BatchTooLarge
signals exist, so the two failure modes are not distinguishable to the
caller by the signaled error. -/
theorem emdFunction_forward_errors_indistinguishable :
    emdFunction_forward (PointBatch.mk 1 1024 (fun _ _ => ptZero))
        (PointBatch.mk 1 2048 (fun _ _ => ptZero)) 0 0 =
      Except.error PyError.assertionError ∧
    emdFunction_forward (PointBatch.mk 513 1024 (fun _ _ => ptZero))
        (PointBatch.mk 513 1024 (fun _ _ => ptZero)) 0 0 =
      Except.error PyError.assertionError ∧
    emdFunction_forward (PointBatch.mk 1 1024 (fun _ _ => ptZero))
        (PointBatch.mk 1 2048 (fun _ _ => ptZero)) 0 0 =
      emdFunction_forward (PointBatch.mk 513 1024 (fun _ _ => ptZero))
        (PointBatch.mk 513 1024 (fun _ _ => ptZero)) 0 0 :=
  ⟨rfl, rfl, rfl⟩

/-- C5 (amended): the forward call does fail when N mismatches or N is not
a multiple of the block size, and does fail when the batch size exceeds
512, but both failure modes signal the same bare assertion error; they are
not distinguishable by the error value. -/
theorem emdFunction_forward_error_modes (xyz1 xyz2 : PointBatch)
    (eps : ℚ) (iters : ℕ) :
    ((xyz1.n ≠ xyz2.n ∨ xyz1.n % 1024 ≠ 0) →
      emdFunction_forward xyz1 xyz2 eps iters =
        Except.error PyError.assertionError) ∧
    (512 < xyz1.batchsize →
      emdFunction_forward xyz1 xyz2 eps iters =
        Except.error PyError.assertionError) := by
  constructor
  · intro h
    refine emdForward_error_of_violation xyz1 xyz2 eps iters ?_
    rcases h with h | h
    · exact Or.inl h
    · exact Or.inr (Or.inr (Or.inl h))
  · intro h
    exact emdForward_error_of_violation xyz1 xyz2 eps iters
      (Or.inr (Or.inr (Or.inr h)))

/-- C5 witness: the amended theorem applied at an N-mismatch input and at a
batch-513 input. -/
theorem emdFunction_forward_error_modes_witness :
    ((1024 : ℕ) ≠ 2048 ∨ (1024 : ℕ) % 1024 ≠ 0) ∧
    emdFunction_forward (PointBatch.mk 1 1024 (fun _ _ => ptZero))
        (PointBatch.mk 1 2048 (fun _ _ => ptZero)) 0 0 =
      Except.error PyError.assertionError ∧
    (512 : ℕ) < 513 ∧
    emdFunction_forward (PointBatch.mk 513 1024 (fun _ _ => ptZero))
        (PointBatch.mk 513 1024 (fun _ _ => ptZero)) 0 0 =
      Except.error PyError.assertionError :=
  ⟨by decide,
    (emdFunction_forward_error_modes _ _ 0 0).1 (by decide),
    by decide,
    (emdFunction_forward_error_modes _ _ 0 0).2 (by decide)⟩

/-- C6: a forward invocation allocates its solver state fresh (the round
loop of every invocation starts from forwardInitState, whose price is
zero), leaves any ambient state outside the call untouched, and its result
does not depend on that ambient state; nothing beyond the returned arrays
and the tensors saved for the one backward call leaves the invocation. -/
theorem emdFunction_forward_no_global_state :
    (∀ (G : Type) (g : G) (xyz1 xyz2 : PointBatch) (eps : ℚ) (iters : ℕ),
      (emdFunction_forwardRun g xyz1 xyz2 eps iters).1 = g) ∧
    (∀ (G : Type) (g1 g2 : G) (xyz1 xyz2 : PointBatch) (eps : ℚ) (iters : ℕ),
      (emdFunction_forwardRun g1 xyz1 xyz2 eps iters).2 =
        (emdFunction_forwardRun g2 xyz1 xyz2 eps iters).2) ∧
    (∀ j, forwardInitState.price j = 0) ∧
    (∀ (xyz1 xyz2 : PointBatch) (eps : ℚ) (iters : ℕ) (b : ℕ),
      forwardFinalState xyz1 xyz2 eps iters b =
        runRounds (baseCost (xyz1.pts b) (xyz2.pts b) eps reg0) xyz1.n iters
          forwardInitState) :=
  ⟨fun _ _ _ _ _ _ => rfl, fun _ _ _ _ _ _ _ => rfl, fun _ => rfl,
    fun _ _ _ _ _ => rfl⟩

/-- C7: at the start of every forward call, before any auction round runs,
the solver state is assignment[i] = -1 for every A-index, assignment_inv[j]
= -1 for every B-index, price[j] = 0 for every B-index; every forward call
starts its round loop from exactly this state. -/
theorem emdFunction_forward_initial_state (i j : ℕ) :
    forwardInitState.assignment i = -1 ∧
    forwardInitState.assignment_inv j = -1 ∧
    forwardInitState.price j = 0 ∧
    ∀ (xyz1 xyz2 : PointBatch) (eps : ℚ) (iters : ℕ) (b : ℕ),
      forwardFinalState xyz1 xyz2 eps iters b =
        runRounds (baseCost (xyz1.pts b) (xyz2.pts b) eps reg0) xyz1.n iters
          forwardInitState :=
  ⟨rfl, rfl, rfl, fun _ _ _ _ _ => rfl⟩

/-- C8: emdModule.forward invokes the matcher with eps = 0.005 (= 1/200)
and iters = 50 when the caller omits them, and passes caller-supplied
values through to the solver unchanged. -/
theorem emdModule_forward_defaults :
    (∀ input1 input2, emdModule_forward input1 input2 =
      emdFunction_forward input1 input2 0.005 50) ∧
    (∀ input1 input2 (eps : ℚ) (iters : ℕ),
      emdModule_forward input1 input2 eps iters =
        emdFunction_forward input1 input2 eps iters) ∧
    (0.005 : ℚ) = 1 / 200 :=
  ⟨fun _ _ => rfl, fun _ _ _ _ => rfl, by norm_num⟩

/-- C9: within one forward call a single floating-point precision is used
throughout: both inputs are converted to float32 and every per-call
floating-point buffer (dist, price, bid_increments, max_increments) is
allocated in that same precision, the torch default dtype, which no file
of the repository changes. -/
theorem emdFunction_forward_single_precision :
    emdFunction_forward_dtypes.xyz1 = DType.float32 ∧
    emdFunction_forward_dtypes.xyz2 = DType.float32 ∧
    emdFunction_forward_dtypes.dist = emdFunction_forward_dtypes.xyz1 ∧
    emdFunction_forward_dtypes.price = emdFunction_forward_dtypes.xyz1 ∧
    emdFunction_forward_dtypes.bid_increments = emdFunction_forward_dtypes.xyz1 ∧
    emdFunction_forward_dtypes.max_increments = emdFunction_forward_dtypes.xyz1 :=
  ⟨rfl, rfl, rfl, rfl, rfl, rfl⟩

/-- C10: emd_loss(output, gt) is exactly the mean over all batch elements
and all N points of the dist array of one forward call of the matcher with
the default parameters eps = 0.005 and iters = 50; the assignment
component of the forward result is discarded and does not affect the
returned loss. -/
theorem emd_loss_is_mean_dist :
    (∀ output gt, emd_loss output gt =
      Except.map (fun r => torch_mean output.batchsize output.n r.dist)
        (emdFunction_forward output gt 0.005 50)) ∧
    (∀ (bs n : ℕ) (r : ForwardResult) (a sa : ℕ → ℕ → ℤ),
      torch_mean bs n
        (ForwardResult.mk r.dist a r.saved_xyz1 r.saved_xyz2 sa).dist =
        torch_mean bs n r.dist) :=
  ⟨fun _ _ => rfl, fun _ _ _ _ _ => rfl⟩
